import Mathlib

/-!
Shallow embedding of the quick-caption transcription pipeline and subtitle
renderer (source: `src/client/utils/formatTime.ts` module containing
`transcribeMedia`, and its CLI twin `transcribe.mjs`), together with proofs
of the specified properties.

JavaScript numbers that hold times are modelled by `Rat` (the claims only
concern finite values); `Math.round` is modelled by `jsRound`
(floor of x + 1/2, which is exactly the JS rounding rule for finite
inputs).  Fallible JS code (functions that `throw`) is modelled with
`Except`.  External calls (OpenAI, ffmpeg, the filesystem) are modelled by
oracle inputs describing what each call would return, and the pipeline
additionally returns the list of external calls it attempted, in order.
-/

attribute [local semireducible] Rat.add Rat.mul Rat.inv Rat.sub

/-- Rounding rule of JavaScript `Math.round` on finite numbers:
round half away from zero upward, i.e. floor of `q + 1/2`. -/
def jsRound (q : Rat) : Int :=
  (q + 1/2).floor

/-- Whitespace class used to model the JS regex `\s` and `String.prototype.trim`
on the character sets that actually occur in transcripts. -/
def isJsWhitespace (c : Char) : Bool :=
  c = ' ' || c = '\t' || c = '\n' || c = '\r' || c = '\x0b' || c = '\x0c'

/-- Model of JS `String.prototype.trim`: drop leading and trailing whitespace. -/
def jsTrim (s : String) : String :=
  String.mk (((s.data.dropWhile isJsWhitespace).reverse.dropWhile isJsWhitespace).reverse)

/-- Helper for `normalizeSegmentText`: replaces each maximal run of whitespace
by a single space; the boolean records whether the previous kept character
position was inside a whitespace run. -/
def collapseWsAux : Bool → List Char → List Char
  | _, [] => []
  | prevWs, c :: rest =>
    if isJsWhitespace c then
      if prevWs then collapseWsAux true rest
      else ' ' :: collapseWsAux true rest
    else c :: collapseWsAux false rest

/-- Model of the source expression `text.replace(/\s+/g, ' ').trim()` used by
both subtitle builders before emitting a segment text. -/
def normalizeSegmentText (s : String) : String :=
  jsTrim (String.mk (collapseWsAux false s.data))

/-- ASCII lowercase conversion of one character (the range JS
`String.prototype.toLowerCase` affects in the strings this module lowercases:
format selectors and model names). -/
def jsToLowerChar (c : Char) : Char :=
  if c.toNat ≥ 65 ∧ c.toNat ≤ 90 then Char.ofNat (c.toNat + 32) else c

/-- Model of JS `String.prototype.toLowerCase`. -/
def jsToLower (s : String) : String :=
  String.mk (s.data.map jsToLowerChar)

/-- Model of JS `String(x).padStart(n, c)`. -/
def padStart (s : String) (n : Nat) (c : Char) : String :=
  String.mk (List.replicate (n - s.length) c) ++ s

/-- Boolean prefix test on strings (JS `String.prototype.startsWith`). -/
def strStartsWith (s p : String) : Bool :=
  s.data.take p.data.length == p.data

/-- Canonical segment of the transcript (source data model: `{id, start, end, text}`;
the JS field `end` is called `stop` here because `end` is a Lean keyword). -/
structure Segment where
  id : Int
  start : Rat
  stop : Rat
  text : String
  deriving DecidableEq, Repr

/-- Transcript data flowing between the pipeline stages: the combined text and
the ordered segment list (the `{text, segments}` objects of the source). -/
structure TranscriptResult where
  text : String
  segments : List Segment
  deriving DecidableEq, Repr

/-- Source function `formatTimestamp(seconds, millisecondSeparator)`
(identical in `formatTime.ts` and `transcribe.mjs`):
clamp `Math.round(seconds * 1000)` at 0, then decompose by integer
division and pad each field. -/
def formatTimestamp (seconds : Rat) (millisecondSeparator : String) : String :=
  let totalMilliseconds : Nat := (max 0 (jsRound (seconds * 1000))).toNat
  let hours := totalMilliseconds / 3600000
  let minutes := (totalMilliseconds % 3600000) / 60000
  let secs := (totalMilliseconds % 60000) / 1000
  let millis := totalMilliseconds % 1000
  let hh := padStart (toString hours) 2 '0'
  let mm := padStart (toString minutes) 2 '0'
  let ss := padStart (toString secs) 2 '0'
  let ms := padStart (toString millis) 3 '0'
  hh ++ ":" ++ mm ++ ":" ++ ss ++ millisecondSeparator ++ ms

/-- Modelled from the spec: the timestamp algorithm as the specification words
it — `ms = max(0, round(seconds*1000))`, `hours = ms / 3600000`,
`minutes = (ms / 60000) mod 60`, `seconds = (ms / 1000) mod 60`,
`milliseconds = ms mod 1000`, zero-padded to 2/2/2/3 digits and joined as
`HH:MM:SS` + separator + `mmm`. -/
def formatTimestampSpec (seconds : Rat) (millisecondSeparator : String) : String :=
  let ms : Nat := (max 0 (jsRound (seconds * 1000))).toNat
  let hours := ms / 3600000
  let minutes := (ms / 60000) % 60
  let secsField := (ms / 1000) % 60
  let millis := ms % 1000
  padStart (toString hours) 2 '0' ++ ":" ++ padStart (toString minutes) 2 '0'
    ++ ":" ++ padStart (toString secsField) 2 '0'
    ++ millisecondSeparator ++ padStart (toString millis) 3 '0'

/-- Value of a JS number-typed field: either NaN (or an infinity), written
`nan`, or a finite value. -/
inductive JsNum
  | nan
  | fin (q : Rat)
  deriving DecidableEq, Repr

/-- Finiteness test `Number.isFinite` used by the segment filter. -/
def JsNum.isFinite : JsNum → Bool
  | .nan => false
  | .fin _ => true

/-- Numeric value of a `JsNum` known to be finite (0 on `nan`; only applied
after the finiteness filter). -/
def JsNum.toRat : JsNum → Rat
  | .nan => 0
  | .fin q => q

/-- Model of the JS nullish-coalescing operator `a ?? b` on optional number
fields: `none` models an absent (`undefined`/`null`) field, which is skipped;
any present value — `nan` included — stops the chain. -/
def jsCoalesce (a b : Option JsNum) : Option JsNum :=
  match a with
  | some v => some v
  | none => b

/-- Raw segment object as the external transcription service returns it,
before any validation: every field may be absent.  The JS fields
`end` and `timing.start` / `timing.end` are called `stop`, `timingStart`
and `timingEnd` here. -/
structure RawSegment where
  id : Int
  start : Option JsNum
  begin : Option JsNum
  timingStart : Option JsNum
  stop : Option JsNum
  timingEnd : Option JsNum
  text : Option String
  content : Option String
  deriving DecidableEq, Repr

/-- Raw response of a transcription call: optional `text`, and `segments`
which is `none` when the field is not an array (`Array.isArray` guard). -/
structure TranscriptionResponse where
  text : Option String
  segments : Option (List RawSegment)
  deriving DecidableEq, Repr

/-- Intermediate shape produced by the `map` inside
`extractSegmentsFromTranscription`, before the finiteness filter. -/
structure CoercedSegment where
  id : Int
  start : JsNum
  stop : JsNum
  text : String
  deriving DecidableEq, Repr

/-- Body of that `map`: `start: Number(segment.start ?? segment.begin ??
segment.timing?.start ?? 0)`, `end: Number(segment.end ?? segment.timing?.end
?? 0)`, `text: String(segment.text ?? segment.content ?? '').trim()`. -/
def coerceRawSegment (s : RawSegment) : CoercedSegment :=
  { id := s.id
    start := (jsCoalesce s.start (jsCoalesce s.begin s.timingStart)).getD (JsNum.fin 0)
    stop := (jsCoalesce s.stop s.timingEnd).getD (JsNum.fin 0)
    text := jsTrim ((match s.text with | some t => some t | none => s.content).getD "") }

/-- Source function `extractSegmentsFromTranscription`: coerce each raw
segment, then keep only those whose coerced start and end are finite. -/
def extractSegmentsFromTranscription (t : TranscriptionResponse) : List Segment :=
  let rawSegments := t.segments.getD []
  ((rawSegments.map coerceRawSegment).filter fun s => s.start.isFinite && s.stop.isFinite).map
    fun s => { id := s.id, start := s.start.toRat, stop := s.stop.toRat, text := s.text }

/-- Source list `SUBTITLE_FORMATS`. -/
def SUBTITLE_FORMATS : List String := [".txt", ".srt", ".vtt"]

/-- Source function `normalizeSubtitleFormat`: empty (falsy) input defaults to
`.srt`; otherwise trim, lowercase, prepend a dot when missing, and reject
anything outside `SUBTITLE_FORMATS`. -/
def normalizeSubtitleFormat (format : String) : Except String String :=
  if format = "" then .ok ".srt"
  else
    let lower := jsToLower (jsTrim format)
    let normalized := if strStartsWith lower "." then lower else "." ++ lower
    if SUBTITLE_FORMATS.contains normalized then .ok normalized
    else .error "Unsupported subtitle format"

/-- Source function `buildSrtFromSegments`: per segment a block
`{index+1}\n{start} --> {end}\n{text}\n` with comma-separated milliseconds,
blocks joined by a newline (hence a blank line between blocks). -/
def buildSrtFromSegments (segments : List Segment) : String :=
  String.intercalate "\n"
    (segments.enum.map fun e =>
      toString (e.1 + 1) ++ "\n" ++ formatTimestamp e.2.start "," ++ " --> "
        ++ formatTimestamp e.2.stop "," ++ "\n" ++ normalizeSegmentText e.2.text ++ "\n")

/-- Source function `buildVttFromSegments`: header `WEBVTT`, blank line, then
blocks `{start} --> {end}\n{text}` with period-separated milliseconds,
joined by blank lines, and a final newline. -/
def buildVttFromSegments (segments : List Segment) : String :=
  let body := String.intercalate "\n\n"
    (segments.map fun segment =>
      formatTimestamp segment.start "." ++ " --> " ++ formatTimestamp segment.stop "."
        ++ "\n" ++ normalizeSegmentText segment.text)
  "WEBVTT\n\n" ++ body ++ "\n"

/-- Failure modes of `renderSubtitleContent`: the `SegmentsRequired`
rejection (source message: cannot render structured subtitle without segment
data) and the unsupported-format rejection. -/
inductive RenderError
  | SegmentsRequired
  | UnsupportedFormat
  deriving DecidableEq, Repr

/-- Source function `renderSubtitleContent(result, format)`: `.txt` returns
`result.text` unchanged; otherwise an empty (or missing) segment list throws
`SegmentsRequired`; then dispatch to the SRT or VTT builder. -/
def renderSubtitleContent (result : TranscriptResult) (format : String) : Except RenderError String :=
  match normalizeSubtitleFormat format with
  | .error _ => .error .UnsupportedFormat
  | .ok normalizedFormat =>
    if normalizedFormat = ".txt" then .ok result.text
    else if result.segments.isEmpty then .error .SegmentsRequired
    else if normalizedFormat = ".srt" then .ok (buildSrtFromSegments result.segments)
    else if normalizedFormat = ".vtt" then .ok (buildVttFromSegments result.segments)
    else .error .UnsupportedFormat

/-- Configuration produced by `getTranscriptionOptions` (environment-derived;
`correctionModel` is `none` when the JS value would be nullish). -/
structure TranscriptionOptions where
  temperature : Rat
  translate : Bool
  language : Option String
  timedModel : String
  highAccuracyModel : String
  correctionModel : Option String
  deriving DecidableEq, Repr

/-- JS truthiness of an optional string: nullish and the empty string are
falsy. -/
def jsTruthyStr : Option String → Bool
  | none => false
  | some s => !(s == "")

/-- Combined text of a transcription response:
`transcription.text?.trim() ?? segments.map(s => s.text).join(' ').trim()`. -/
def combinedTextOf (t : TranscriptionResponse) (segments : List Segment) : String :=
  match t.text with
  | some txt => jsTrim txt
  | none => jsTrim (String.intercalate " " (segments.map Segment.text))

/-- External calls a pipeline run can attempt, in the order it attempts them. -/
inductive ExternalCall
  | ffmpegConvert
  | timedTranscription
  | highAccuracyTranscription
  | correction
  deriving DecidableEq, Repr

/-- Fatal errors of the pipeline (the exceptions `transcribeMedia` can
propagate to its caller). -/
inductive PipelineError
  | FileNotFound
  | ApiKeyMissing
  | UnsupportedFormat
  | FfmpegMissing
  | ConversionFailed
  | SizeLimitExceeded
  | TranscriptionServiceError (msg : String)
  | NoTimestampsAvailable
  | SegmentsRequired
  deriving DecidableEq, Repr

/-- Source function `transcribeWithTimedModel`: an exception from the API call
propagates; zero usable parsed segments is the fatal
`NoTimestampsAvailable` condition. -/
def transcribeWithTimedModel (resp : Except String TranscriptionResponse) :
    Except PipelineError TranscriptResult :=
  match resp with
  | .error msg => .error (.TranscriptionServiceError msg)
  | .ok transcription =>
    let segments := extractSegmentsFromTranscription transcription
    let combinedText := combinedTextOf transcription segments
    if segments.isEmpty then .error .NoTimestampsAvailable
    else .ok { text := combinedText, segments := segments }

/-- Result of the optional high-accuracy stage: text, and its own segments
when it produced any (`segments.length ? segments : null`). -/
structure HighAccuracyResult where
  text : String
  segments : Option (List Segment)
  deriving DecidableEq, Repr

/-- Source function `transcribeWithHighAccuracyModel`: an exception from the
API call propagates, as does empty combined text. -/
def transcribeWithHighAccuracyModel (resp : Except String TranscriptionResponse) :
    Except String HighAccuracyResult :=
  match resp with
  | .error msg => .error msg
  | .ok transcription =>
    let segments := extractSegmentsFromTranscription transcription
    let combinedText := combinedTextOf transcription segments
    if combinedText = "" then .error "High-accuracy model returned no text."
    else .ok { text := combinedText
               segments := if segments.isEmpty then none else some segments }

/-- Source function `shouldRunHighAccuracy`. -/
def shouldRunHighAccuracy (modelName : String) : Bool :=
  if modelName = "" then false
  else
    let normalized := jsToLower (jsTrim modelName)
    normalized != "none" && normalized != "skip" && normalized != "false"

/-- Segment object inside the correction model's parsed JSON reply: an `id`,
the `text` the model proposes, and whatever `start`/`end` values the model
chose to emit (the merge code reads only `id` and `text`; `start` and `stop`
are carried here precisely so that ignoring them is provable). -/
structure CorrectionSegment where
  id : Int
  start : Option JsNum
  stop : Option JsNum
  text : Option String
  deriving DecidableEq, Repr

/-- Outcome of the correction call and of decoding its reply, up to the point
where `refineTranscriptWithGPT` starts validating ids: the call can throw,
return falsy `output_text`, return text that fails `JSON.parse`, return JSON
without a `segments` array, or return a parsed `segments` array. -/
inductive CorrectionOutcome
  | transportError (msg : String)
  | noOutput
  | parseError (msg : String)
  | missingSegmentsArray
  | segments (parsed : List CorrectionSegment)
  deriving DecidableEq, Repr

/-- Body of the `parsed.segments.map` in `refineTranscriptWithGPT`: look up
the base segment with the returned id (unknown id throws), copy the base
`id`/`start`/`end`, and keep the base text when the returned text trims to
empty (`String(original.text ?? '').trim() || reference.text`). -/
def mergeOne (baseSegments : List Segment) (original : CorrectionSegment) : Except String Segment :=
  match baseSegments.find? (fun seg => seg.id == original.id) with
  | none => .error ("Correction output references unknown segment id " ++ toString original.id)
  | some reference =>
    .ok { id := reference.id
          start := reference.start
          stop := reference.stop
          text :=
            let t := jsTrim (original.text.getD "")
            if t = "" then reference.text else t }

/-- The whole `parsed.segments.map(...)` with its embedded `throw`: the first
unknown id aborts with that error, otherwise all merged segments are
returned in the response order. -/
def mergeSegments (baseSegments : List Segment) : List CorrectionSegment → Except String (List Segment)
  | [] => .ok []
  | original :: rest =>
    match mergeOne baseSegments original with
    | .error msg => .error msg
    | .ok merged =>
      match mergeSegments baseSegments rest with
      | .error msg => .error msg
      | .ok tail => .ok (merged :: tail)

/-- Source function `refineTranscriptWithGPT` (formatTime.ts version): a falsy
correction model short-circuits to the base result; otherwise the outcome of
the external call is validated and merged; the final text is the
space-joined merged texts with the base text as fallback when that join
trims to empty. The high-accuracy result only feeds the model prompt. -/
def refineTranscriptWithGPT (baseResult : TranscriptResult)
    (_highAccuracyResult : Option HighAccuracyResult) (options : TranscriptionOptions)
    (outcome : CorrectionOutcome) : Except String TranscriptResult :=
  if jsTruthyStr options.correctionModel = false then .ok baseResult
  else
    match outcome with
    | .transportError msg => .error msg
    | .noOutput => .error "Correction model returned no output."
    | .parseError msg => .error ("Failed to parse correction model output: " ++ msg)
    | .missingSegmentsArray => .error "Correction model response missing segments array."
    | .segments parsedSegments =>
      match mergeSegments baseResult.segments parsedSegments with
      | .error msg => .error msg
      | .ok refinedSegments =>
        let refinedText := jsTrim (String.intercalate " " (refinedSegments.map Segment.text))
        .ok { text := if refinedText = "" then baseResult.text else refinedText
              segments := refinedSegments }

/-- Source list `AUDIO_EXTENSIONS`. -/
def AUDIO_EXTENSIONS : List String :=
  [".mp3", ".wav", ".m4a", ".aac", ".ogg", ".flac", ".opus"]

/-- Source constant `OPENAI_UPLOAD_LIMIT_BYTES` (25 MB). -/
def OPENAI_UPLOAD_LIMIT_BYTES : Nat := 25 * 1024 * 1024

/-- Filesystem/process facts `prepareAudioForTranscription` observes: the
input size and lowercased extension, whether ffmpeg is on the PATH, whether
the conversion process exits 0, and the converted file's size. -/
structure AudioPrepEnv where
  inputSize : Nat
  inputExt : String
  ffmpegAvailable : Bool
  conversionSucceeds : Bool
  convertedSize : Nat
  deriving DecidableEq, Repr

/-- Return value of audio preparation: whether a temporary converted file (and
hence a cleanup action) exists. -/
structure AudioPreparation where
  usedConversion : Bool
  deriving DecidableEq, Repr

/-- Source function `prepareAudioForTranscription`: a supported audio
extension within the size limit is passed through; otherwise ffmpeg converts,
and a converted file still over the limit is the fatal size-limit error.
Alongside the result, the list of external conversion calls attempted. -/
def prepareAudioForTranscription (env : AudioPrepEnv) :
    Except PipelineError AudioPreparation × List ExternalCall :=
  let isAudio := AUDIO_EXTENSIONS.contains env.inputExt
  let withinLimit := decide (env.inputSize ≤ OPENAI_UPLOAD_LIMIT_BYTES)
  if isAudio && withinLimit then (.ok { usedConversion := false }, [])
  else if env.ffmpegAvailable = false then (.error .FfmpegMissing, [])
  else if env.conversionSucceeds = false then (.error .ConversionFailed, [.ffmpegConvert])
  else if OPENAI_UPLOAD_LIMIT_BYTES < env.convertedSize then
    (.error .SizeLimitExceeded, [.ffmpegConvert])
  else (.ok { usedConversion := true }, [.ffmpegConvert])

deriving instance DecidableEq for Except

/-- Oracle inputs of one pipeline run: whether the input path resolves and the
API key is set, the audio-preparation facts, and what each external service
call would return if attempted. -/
structure PipelineEnv where
  inputExists : Bool
  apiKeyPresent : Bool
  prep : AudioPrepEnv
  timedResponse : Except String TranscriptionResponse
  highAccuracyResponse : Except String TranscriptionResponse
  correctionOutcome : CorrectionOutcome
  deriving DecidableEq, Repr

/-- Value `transcribeMedia` returns on success: the refined text and segments,
the rendered subtitle, the `models` record and the accumulated warnings. -/
structure RunResult where
  text : String
  segments : List Segment
  subtitleFormat : String
  subtitleContent : String
  modelsTimed : String
  modelsHighAccuracy : Option String
  modelsCorrection : Option String
  warnings : List String
  deriving DecidableEq, Repr

/-- The high-accuracy block of `transcribeMedia`: when configured, attempt the
call; an exception becomes a warning and a `null` result.  Returns the stage
result, its warnings and its external calls. -/
def runHighAccuracyStage (options : TranscriptionOptions)
    (resp : Except String TranscriptionResponse) :
    Option HighAccuracyResult × List String × List ExternalCall :=
  if shouldRunHighAccuracy options.highAccuracyModel then
    match transcribeWithHighAccuracyModel resp with
    | .ok r => (some r, [], [.highAccuracyTranscription])
    | .error msg =>
      (none, ["High-accuracy transcription failed: " ++ msg], [.highAccuracyTranscription])
  else (none, [], [])

/-- The correction block of `transcribeMedia`: when the correction model is
truthy, attempt refinement; an exception becomes a warning and the base
(timed) result is kept.  Returns the transcript to continue with, the
stage's warnings and its external calls. -/
def runCorrectionStage (options : TranscriptionOptions) (timedResult : TranscriptResult)
    (highAccuracyResult : Option HighAccuracyResult) (outcome : CorrectionOutcome) :
    TranscriptResult × List String × List ExternalCall :=
  if jsTruthyStr options.correctionModel then
    match refineTranscriptWithGPT timedResult highAccuracyResult options outcome with
    | .ok r => (r, [], [.correction])
    | .error msg => (timedResult, ["Correction model failed: " ++ msg], [.correction])
  else (timedResult, [], [])

/-- Source function `transcribeMedia` (formatTime.ts): normalize the requested
format, check the input path and API key, prepare audio, run the mandatory
timed transcription, the optional high-accuracy and correction stages, and
render the subtitle.  Together with the outcome, the ordered list of
external calls the run attempted. -/
def transcribeMedia (format : String) (options : TranscriptionOptions) (env : PipelineEnv) :
    Except PipelineError RunResult × List ExternalCall :=
  match normalizeSubtitleFormat format with
  | .error _ => (.error .UnsupportedFormat, [])
  | .ok normalizedFormat =>
    if env.inputExists = false then (.error .FileNotFound, [])
    else if env.apiKeyPresent = false then (.error .ApiKeyMissing, [])
    else
      match prepareAudioForTranscription env.prep with
      | (.error e, prepCalls) => (.error e, prepCalls)
      | (.ok _prepared, prepCalls) =>
        match transcribeWithTimedModel env.timedResponse with
        | .error e => (.error e, prepCalls ++ [.timedTranscription])
        | .ok timedResult =>
          let ha := runHighAccuracyStage options env.highAccuracyResponse
          let corr := runCorrectionStage options timedResult ha.1 env.correctionOutcome
          let refinedResult := corr.1
          let calls := prepCalls ++ [ExternalCall.timedTranscription] ++ ha.2.2 ++ corr.2.2
          match renderSubtitleContent refinedResult normalizedFormat with
          | .error .SegmentsRequired => (.error .SegmentsRequired, calls)
          | .error .UnsupportedFormat => (.error .UnsupportedFormat, calls)
          | .ok subtitleContent =>
            (.ok { text := refinedResult.text
                   segments := refinedResult.segments
                   subtitleFormat := normalizedFormat
                   subtitleContent := subtitleContent
                   modelsTimed := options.timedModel
                   modelsHighAccuracy :=
                     match ha.1 with
                     | some _ => some options.highAccuracyModel
                     | none => none
                   modelsCorrection := options.correctionModel
                   warnings := ha.2.1 ++ corr.2.1 },
             calls)

def C2base : TranscriptResult :=
  { text := "old one old two"
    segments := [{ id := 3, start := 1, stop := 2, text := "old one" },
                 { id := 4, start := 2, stop := 7/2, text := "old two" }] }

def C2parsed : List CorrectionSegment :=
  [{ id := 4, start := some (.fin 9), stop := some (.fin 10), text := some " better two " },
   { id := 3, start := some (.fin 11), stop := some (.fin 12), text := some "   " }]

def C2opts : TranscriptionOptions :=
  { temperature := 0, translate := false, language := none,
    timedModel := "whisper-1", highAccuracyModel := "none", correctionModel := some "gpt-5" }

def C2refined : TranscriptResult :=
  { text := "better two old one"
    segments := [{ id := 4, start := 2, stop := 7/2, text := "better two" },
                 { id := 3, start := 1, stop := 2, text := "old one" }] }

def C10base : TranscriptResult :=
  { text := "a b c"
    segments := [{ id := 0, start := 0, stop := 1, text := "a" },
                 { id := 1, start := 1, stop := 2, text := "b" },
                 { id := 2, start := 2, stop := 3, text := "c" }] }

def C10parsed : List CorrectionSegment :=
  [{ id := 2, start := none, stop := none, text := some "cc" },
   { id := 2, start := none, stop := none, text := some "cc2" },
   { id := 0, start := none, stop := none, text := some "aa" }]

/-- Modelled from the spec: one SRT block per segment —
`{1-based index}\n{start} --> {end}\n{text}\n` with `HH:MM:SS,mmm`
timestamps (comma separator) computed by the spec decomposition and the
segment text whitespace-normalized as the renderer specification states. -/
def srtBlockSpec (index : Nat) (segment : Segment) : String :=
  toString (index + 1) ++ "\n" ++ formatTimestampSpec segment.start "," ++ " --> "
    ++ formatTimestampSpec segment.stop "," ++ "\n" ++ normalizeSegmentText segment.text ++ "\n"

/-- Modelled from the spec: one VTT block per segment —
`{start} --> {end}\n{text}` with `HH:MM:SS.mmm` timestamps (period
separator). -/
def vttBlockSpec (segment : Segment) : String :=
  formatTimestampSpec segment.start "." ++ " --> " ++ formatTimestampSpec segment.stop "."
    ++ "\n" ++ normalizeSegmentText segment.text

/-- Raw provider segment with finite start and end and a plain text, the
common healthy case used by the concrete scenarios below. -/
def rawSeg (i : Int) (a b : Rat) (t : String) : RawSegment :=
  { id := i, start := some (.fin a), begin := none, timingStart := none,
    stop := some (.fin b), timingEnd := none, text := some t, content := none }

def C1opts : TranscriptionOptions :=
  { temperature := 0, translate := false, language := none,
    timedModel := "whisper-1", highAccuracyModel := "none", correctionModel := some "gpt-5" }

def C1env : PipelineEnv :=
  { inputExists := true, apiKeyPresent := true,
    prep := { inputSize := 100, inputExt := ".mp3", ffmpegAvailable := true,
              conversionSucceeds := true, convertedSize := 0 },
    timedResponse := .ok { text := some "base text", segments := some [rawSeg 0 0 1 "base"] },
    highAccuracyResponse := .error "unused",
    correctionOutcome := .segments [{ id := 99, start := none, stop := none, text := some "bogus" }] }

def C1result : RunResult :=
  { text := "base text"
    segments := [{ id := 0, start := 0, stop := 1, text := "base" }]
    subtitleFormat := ".srt"
    subtitleContent := "1\n00:00:00,000 --> 00:00:01,000\nbase\n"
    modelsTimed := "whisper-1"
    modelsHighAccuracy := none
    modelsCorrection := some "gpt-5"
    warnings := ["Correction model failed: Correction output references unknown segment id 99"] }

def C1timed : TranscriptResult :=
  { text := "base text", segments := [{ id := 0, start := 0, stop := 1, text := "base" }] }

def C7opts : TranscriptionOptions :=
  { temperature := 0, translate := false, language := none,
    timedModel := "whisper-1", highAccuracyModel := "gpt-4o-transcribe",
    correctionModel := some "gpt-5" }

def C7env : PipelineEnv :=
  { inputExists := true, apiKeyPresent := true,
    prep := { inputSize := 100, inputExt := ".mp3", ffmpegAvailable := true,
              conversionSucceeds := true, convertedSize := 0 },
    timedResponse := .ok { text := some "base text", segments := some [rawSeg 0 0 1 "base"] },
    highAccuracyResponse := .error "boom",
    correctionOutcome := .transportError "corr boom" }

def C8opts : TranscriptionOptions :=
  { temperature := 0, translate := false, language := none,
    timedModel := "whisper-1", highAccuracyModel := "none", correctionModel := none }

def C8env : PipelineEnv :=
  { inputExists := true, apiKeyPresent := true,
    prep := { inputSize := 100, inputExt := ".mp3", ffmpegAvailable := true,
              conversionSucceeds := true, convertedSize := 0 },
    timedResponse :=
      .ok { text := some "a b", segments := some [rawSeg 7 5 2 "a", rawSeg 7 0 1 "b"] },
    highAccuracyResponse := .error "unused",
    correctionOutcome := .transportError "unused" }

def C8result : RunResult :=
  { text := "a b"
    segments := [{ id := 7, start := 5, stop := 2, text := "a" },
                 { id := 7, start := 0, stop := 1, text := "b" }]
    subtitleFormat := ".txt"
    subtitleContent := "a b"
    modelsTimed := "whisper-1"
    modelsHighAccuracy := none
    modelsCorrection := none
    warnings := [] }

def C8wopts : TranscriptionOptions :=
  { temperature := 0, translate := false, language := none,
    timedModel := "whisper-1", highAccuracyModel := "none", correctionModel := some "gpt-5" }

def C8wresp : TranscriptionResponse :=
  { text := some "base text", segments := some [rawSeg 0 0 1 "base", rawSeg 1 1 2 "more"] }

def C8wenv : PipelineEnv :=
  { inputExists := true, apiKeyPresent := true,
    prep := { inputSize := 100, inputExt := ".mp3", ffmpegAvailable := true,
              conversionSucceeds := true, convertedSize := 0 },
    timedResponse := .ok C8wresp,
    highAccuracyResponse := .error "unused",
    correctionOutcome := .segments [{ id := 1, start := none, stop := none, text := some "fixed" }] }

def C8wresult : RunResult :=
  { text := "fixed"
    segments := [{ id := 1, start := 1, stop := 2, text := "fixed" }]
    subtitleFormat := ".srt"
    subtitleContent := "1\n00:00:01,000 --> 00:00:02,000\nfixed\n"
    modelsTimed := "whisper-1"
    modelsHighAccuracy := none
    modelsCorrection := some "gpt-5"
    warnings := [] }

def C9env : PipelineEnv :=
  { inputExists := true, apiKeyPresent := true,
    prep := { inputSize := 30 * 1024 * 1024, inputExt := ".mp4", ffmpegAvailable := true,
              conversionSucceeds := true, convertedSize := 26 * 1024 * 1024 },
    timedResponse := .error "never called",
    highAccuracyResponse := .error "never called",
    correctionOutcome := .transportError "never called" }

theorem minutes_decomp (n : Nat) : (n % 3600000) / 60000 = (n / 60000) % 60 := by
  have h : (3600000 : Nat) = 60000 * 60 := by norm_num
  rw [h, Nat.mod_mul_right_div_self]

theorem seconds_decomp (n : Nat) : (n % 60000) / 1000 = (n / 1000) % 60 := by
  have h : (60000 : Nat) = 1000 * 60 := by norm_num
  rw [h, Nat.mod_mul_right_div_self]

theorem formatTimestamp_eq_spec_decomp (seconds : Rat) (sep : String) :
    formatTimestamp seconds sep = formatTimestampSpec seconds sep := by
  simp only [formatTimestamp, formatTimestampSpec, minutes_decomp, seconds_decomp]

/-- C3: for every finite seconds value and separator, `formatTimestamp`
returns exactly the string described by the spec decomposition
(`ms = max(0, round(s*1000))`; hours `= ms/3600000`; minutes
`= (ms/60000) mod 60`; seconds `= (ms/1000) mod 60`; milliseconds
`= ms mod 1000`; zero-padded 2/2/2/3 and joined with the separator) —
in particular it is a pure function of its input. -/
theorem formatTimestamp_matches_spec (seconds : Rat) (sep : String) :
    formatTimestamp seconds sep = formatTimestampSpec seconds sep :=
  formatTimestamp_eq_spec_decomp seconds sep

theorem mergeOne_ok_spec {base : List Segment} {o : CorrectionSegment} {m : Segment}
    (h : mergeOne base o = .ok m) :
    ∃ ref ∈ base, ref.id = o.id ∧ m.id = ref.id ∧ m.start = ref.start ∧ m.stop = ref.stop ∧
      m.text = (if jsTrim (o.text.getD "") = "" then ref.text else jsTrim (o.text.getD "")) := by
  unfold mergeOne at h
  cases hf : base.find? (fun seg => seg.id == o.id) with
  | none => rw [hf] at h; exact absurd h (by simp)
  | some reference =>
    rw [hf] at h
    have hid : reference.id = o.id := by simpa using List.find?_some hf
    refine ⟨reference, List.mem_of_find?_eq_some hf, hid, ?_⟩
    cases h
    simp

theorem mergeOne_isOk_of_mem {base : List Segment} {o : CorrectionSegment}
    (h : ∃ ref ∈ base, ref.id = o.id) :
    ∃ m, mergeOne base o = .ok m := by
  have hs : (base.find? (fun seg => seg.id == o.id)).isSome := by
    refine List.find?_isSome.mpr ?_
    obtain ⟨ref, hm, hid⟩ := h
    exact ⟨ref, hm, by simpa using hid⟩
  unfold mergeOne
  cases hf : base.find? (fun seg => seg.id == o.id) with
  | none => rw [hf] at hs; simp at hs
  | some reference => exact ⟨_, rfl⟩

theorem mergeSegments_ok_cons {base : List Segment} {o : CorrectionSegment}
    {rest : List CorrectionSegment} {merged : List Segment}
    (h : mergeSegments base (o :: rest) = .ok merged) :
    ∃ m tail, mergeOne base o = .ok m ∧ mergeSegments base rest = .ok tail ∧
      merged = m :: tail := by
  unfold mergeSegments at h
  cases h1 : mergeOne base o with
  | error msg => rw [h1] at h; exact absurd h (by simp)
  | ok m =>
    rw [h1] at h
    cases h2 : mergeSegments base rest with
    | error msg => rw [h2] at h; exact absurd h (by simp)
    | ok tail =>
      rw [h2] at h
      cases h
      exact ⟨m, tail, rfl, rfl, rfl⟩

theorem mergeSegments_ok_ids {base : List Segment} :
    ∀ {parsed : List CorrectionSegment} {merged : List Segment},
      mergeSegments base parsed = .ok merged →
      merged.map Segment.id = parsed.map CorrectionSegment.id := by
  intro parsed
  induction parsed with
  | nil => intro merged h; cases h; simp
  | cons o rest ih =>
    intro merged h
    obtain ⟨m, tail, h1, h2, rfl⟩ := mergeSegments_ok_cons h
    obtain ⟨ref, _, hrid, hmid, _⟩ := mergeOne_ok_spec h1
    simp [ih h2, hmid, hrid]

theorem mergeSegments_ok_get {base : List Segment} :
    ∀ {parsed : List CorrectionSegment} {merged : List Segment},
      mergeSegments base parsed = .ok merged →
      ∀ k (hk : k < parsed.length) (hk2 : k < merged.length),
        mergeOne base (parsed.get ⟨k, hk⟩) = .ok (merged.get ⟨k, hk2⟩) := by
  intro parsed
  induction parsed with
  | nil => intro merged h k hk; exact absurd hk (by simp)
  | cons o rest ih =>
    intro merged h k hk hk2
    obtain ⟨m, tail, h1, h2, rfl⟩ := mergeSegments_ok_cons h
    cases k with
    | zero => simpa using h1
    | succ n =>
      have hn : n < rest.length := Nat.lt_of_succ_lt_succ hk
      have hn2 : n < tail.length := Nat.lt_of_succ_lt_succ hk2
      simpa using ih h2 n hn hn2

theorem mergeSegments_ok_mem {base : List Segment} :
    ∀ {parsed : List CorrectionSegment} {merged : List Segment},
      mergeSegments base parsed = .ok merged →
      ∀ s ∈ merged, ∃ ref ∈ base, s.id = ref.id ∧ s.start = ref.start ∧ s.stop = ref.stop := by
  intro parsed
  induction parsed with
  | nil => intro merged h s hs; cases h; simp at hs
  | cons o rest ih =>
    intro merged h s hs
    obtain ⟨m, tail, h1, h2, rfl⟩ := mergeSegments_ok_cons h
    rcases List.mem_cons.mp hs with rfl | htail
    · obtain ⟨ref, hmem, _, hmid, hstart, hstop, _⟩ := mergeOne_ok_spec h1
      exact ⟨ref, hmem, hmid, hstart, hstop⟩
    · exact ih h2 s htail

theorem mergeSegments_ok_of_ids {base : List Segment} :
    ∀ {parsed : List CorrectionSegment},
      (∀ o ∈ parsed, ∃ ref ∈ base, ref.id = o.id) →
      ∃ merged, mergeSegments base parsed = .ok merged := by
  intro parsed
  induction parsed with
  | nil => intro _; exact ⟨[], rfl⟩
  | cons o rest ih =>
    intro h
    obtain ⟨m, hm⟩ := mergeOne_isOk_of_mem (h o (by simp))
    obtain ⟨tail, ht⟩ := ih (fun x hx => h x (by simp [hx]))
    exact ⟨m :: tail, by unfold mergeSegments; rw [hm, ht]⟩

theorem refine_segments_ok_inv {baseResult : TranscriptResult}
    {ha : Option HighAccuracyResult} {opts : TranscriptionOptions}
    {parsed : List CorrectionSegment} {refined : TranscriptResult}
    (hmodel : jsTruthyStr opts.correctionModel = true)
    (h : refineTranscriptWithGPT baseResult ha opts (.segments parsed) = .ok refined) :
    mergeSegments baseResult.segments parsed = .ok refined.segments := by
  unfold refineTranscriptWithGPT at h
  rw [hmodel] at h
  simp only [Bool.true_eq_false, if_false] at h
  cases hm : mergeSegments baseResult.segments parsed with
  | error msg => rw [hm] at h; exact absurd h (by simp)
  | ok merged =>
    rw [hm] at h
    simp only [Except.ok.injEq] at h
    rw [← h]

theorem refine_ok_of_merge {baseResult : TranscriptResult} {ha : Option HighAccuracyResult}
    {opts : TranscriptionOptions} {parsed : List CorrectionSegment} {merged : List Segment}
    (hmodel : jsTruthyStr opts.correctionModel = true)
    (hm : mergeSegments baseResult.segments parsed = .ok merged) :
    refineTranscriptWithGPT baseResult ha opts (.segments parsed) = .ok
      { text :=
          if jsTrim (String.intercalate " " (merged.map Segment.text)) = "" then baseResult.text
          else jsTrim (String.intercalate " " (merged.map Segment.text))
        segments := merged } := by
  unfold refineTranscriptWithGPT
  rw [hmodel]
  simp only [Bool.true_eq_false, if_false]
  rw [hm]

/-- C2: whenever the correction merge accepts the model's output, every merged
segment takes its `id`, `start` and `end` from the base segment carrying the
returned id — regardless of any `start`/`end` the model returned — and a
returned text that is empty after trimming keeps the base text (otherwise
the trimmed returned text is used). -/
theorem refineTranscript_merge_invariant
    (baseResult : TranscriptResult) (ha : Option HighAccuracyResult)
    (opts : TranscriptionOptions) (parsed : List CorrectionSegment)
    (refined : TranscriptResult)
    (hmodel : jsTruthyStr opts.correctionModel = true)
    (h : refineTranscriptWithGPT baseResult ha opts (.segments parsed) = .ok refined) :
    refined.segments.length = parsed.length ∧
    ∀ k (hk : k < parsed.length) (hk2 : k < refined.segments.length),
      ∃ ref ∈ baseResult.segments,
        ref.id = (parsed.get ⟨k, hk⟩).id ∧
        (refined.segments.get ⟨k, hk2⟩).id = ref.id ∧
        (refined.segments.get ⟨k, hk2⟩).start = ref.start ∧
        (refined.segments.get ⟨k, hk2⟩).stop = ref.stop ∧
        (jsTrim ((parsed.get ⟨k, hk⟩).text.getD "") = "" →
          (refined.segments.get ⟨k, hk2⟩).text = ref.text) ∧
        (jsTrim ((parsed.get ⟨k, hk⟩).text.getD "") ≠ "" →
          (refined.segments.get ⟨k, hk2⟩).text = jsTrim ((parsed.get ⟨k, hk⟩).text.getD "")) := by
  have hm := refine_segments_ok_inv hmodel h
  constructor
  · have hids := mergeSegments_ok_ids hm
    calc refined.segments.length = (refined.segments.map Segment.id).length := by simp
      _ = (parsed.map CorrectionSegment.id).length := by rw [hids]
      _ = parsed.length := by simp
  · intro k hk hk2
    have hone := mergeSegments_ok_get hm k hk hk2
    obtain ⟨ref, hmem, hrid, hmid, hstart, hstop, htext⟩ := mergeOne_ok_spec hone
    refine ⟨ref, hmem, hrid, hmid, hstart, hstop, ?_, ?_⟩
    · intro hempty; rw [htext, if_pos hempty]
    · intro hne; rw [htext, if_neg hne]

theorem refineTranscript_merge_invariant_witness :
    C2refined.segments.length = C2parsed.length ∧
    ∀ k (hk : k < C2parsed.length) (hk2 : k < C2refined.segments.length),
      ∃ ref ∈ C2base.segments,
        ref.id = (C2parsed.get ⟨k, hk⟩).id ∧
        (C2refined.segments.get ⟨k, hk2⟩).id = ref.id ∧
        (C2refined.segments.get ⟨k, hk2⟩).start = ref.start ∧
        (C2refined.segments.get ⟨k, hk2⟩).stop = ref.stop ∧
        (jsTrim ((C2parsed.get ⟨k, hk⟩).text.getD "") = "" →
          (C2refined.segments.get ⟨k, hk2⟩).text = ref.text) ∧
        (jsTrim ((C2parsed.get ⟨k, hk⟩).text.getD "") ≠ "" →
          (C2refined.segments.get ⟨k, hk2⟩).text = jsTrim ((C2parsed.get ⟨k, hk⟩).text.getD "")) :=
  refineTranscript_merge_invariant C2base none C2opts C2parsed C2refined (by decide) (by decide)

/-- C10 (implicit): when every id in the correction response matches some base
segment id, the correction is accepted — even if it omits base ids, repeats
an id, or lists ids out of order — and the refined segment list has exactly
one segment per response entry, in response order (its id sequence is the
response's id sequence); hence base ids the response omitted are absent from
the result. -/
theorem refineTranscript_accepts_known_ids
    (baseResult : TranscriptResult) (ha : Option HighAccuracyResult)
    (opts : TranscriptionOptions) (parsed : List CorrectionSegment)
    (hmodel : jsTruthyStr opts.correctionModel = true)
    (hids : ∀ o ∈ parsed, ∃ ref ∈ baseResult.segments, ref.id = o.id) :
    ∃ refined, refineTranscriptWithGPT baseResult ha opts (.segments parsed) = .ok refined ∧
      refined.segments.map Segment.id = parsed.map CorrectionSegment.id ∧
      refined.segments.length = parsed.length ∧
      (∀ j : Int, (∀ o ∈ parsed, o.id ≠ j) → ∀ s ∈ refined.segments, s.id ≠ j) := by
  obtain ⟨merged, hm⟩ := mergeSegments_ok_of_ids hids
  have hmap := mergeSegments_ok_ids hm
  refine ⟨_, @refine_ok_of_merge baseResult ha opts parsed merged hmodel hm, ?_, ?_, ?_⟩
  · simpa using hmap
  · calc merged.length = (merged.map Segment.id).length := by simp
      _ = (parsed.map CorrectionSegment.id).length := by rw [hmap]
      _ = parsed.length := by simp
  · intro j hnot s hs hsj
    have hin : s.id ∈ merged.map Segment.id := List.mem_map_of_mem Segment.id hs
    rw [hmap] at hin
    obtain ⟨o, ho, hoid⟩ := List.mem_map.mp hin
    exact hnot o ho (by rw [hoid, hsj])

theorem refineTranscript_accepts_known_ids_witness :
    ∃ refined, refineTranscriptWithGPT C10base none C2opts (.segments C10parsed) = .ok refined ∧
      refined.segments.map Segment.id = C10parsed.map CorrectionSegment.id ∧
      refined.segments.length = C10parsed.length ∧
      (∀ j : Int, (∀ o ∈ C10parsed, o.id ≠ j) → ∀ s ∈ refined.segments, s.id ≠ j) :=
  refineTranscript_accepts_known_ids C10base none C2opts C10parsed (by decide) (by decide)

/-- C4: for every non-empty segment list the SRT renderer emits exactly one
block per segment of the spec's block form, blocks separated by a blank line
(join of newline-terminated blocks with a newline); and on the single
segment `{id 0, start 0, end 2.5, text "hello"}` the content begins with
`1\n00:00:00,000 --> 00:00:02,500\nhello\n`. -/
theorem buildSrt_matches_spec (segments : List Segment) (_h : segments ≠ []) :
    buildSrtFromSegments segments =
      String.intercalate "\n" (segments.enum.map fun e => srtBlockSpec e.1 e.2) ∧
    strStartsWith (buildSrtFromSegments [{ id := 0, start := 0, stop := 5/2, text := "hello" }])
      "1\n00:00:00,000 --> 00:00:02,500\nhello\n" = true := by
  constructor
  · unfold buildSrtFromSegments srtBlockSpec
    simp only [formatTimestamp_eq_spec_decomp]
  · decide

theorem buildSrt_matches_spec_witness :
    ([{ id := 0, start := 0, stop := 5/2, text := "hello" }] : List Segment) ≠ [] ∧
    (buildSrtFromSegments [{ id := 0, start := 0, stop := 5/2, text := "hello" }] =
      String.intercalate "\n"
        (([{ id := 0, start := 0, stop := 5/2, text := "hello" }] : List Segment).enum.map
          fun e => srtBlockSpec e.1 e.2) ∧
      strStartsWith (buildSrtFromSegments [{ id := 0, start := 0, stop := 5/2, text := "hello" }])
        "1\n00:00:00,000 --> 00:00:02,500\nhello\n" = true) :=
  ⟨by decide, buildSrt_matches_spec [{ id := 0, start := 0, stop := 5/2, text := "hello" }] (by decide)⟩

/-- C5: for every non-empty segment list the VTT renderer's output is the
header `WEBVTT`, a blank line, then the spec's blocks joined by blank lines;
and on the single segment `{id 0, start 0, end 2.5, text "hello"}` the
content begins with `WEBVTT\n\n00:00:00.000 --> 00:00:02.500\nhello`. -/
theorem buildVtt_matches_spec (segments : List Segment) (_h : segments ≠ []) :
    buildVttFromSegments segments =
      "WEBVTT\n\n" ++ String.intercalate "\n\n" (segments.map vttBlockSpec) ++ "\n" ∧
    strStartsWith (buildVttFromSegments [{ id := 0, start := 0, stop := 5/2, text := "hello" }])
      "WEBVTT\n\n00:00:00.000 --> 00:00:02.500\nhello" = true := by
  constructor
  · unfold buildVttFromSegments vttBlockSpec
    simp only [formatTimestamp_eq_spec_decomp]
  · decide

theorem buildVtt_matches_spec_witness :
    ([{ id := 0, start := 0, stop := 5/2, text := "hello" }] : List Segment) ≠ [] ∧
    (buildVttFromSegments [{ id := 0, start := 0, stop := 5/2, text := "hello" }] =
      "WEBVTT\n\n" ++ String.intercalate "\n\n"
        (([{ id := 0, start := 0, stop := 5/2, text := "hello" }] : List Segment).map vttBlockSpec)
        ++ "\n" ∧
      strStartsWith (buildVttFromSegments [{ id := 0, start := 0, stop := 5/2, text := "hello" }])
        "WEBVTT\n\n00:00:00.000 --> 00:00:02.500\nhello" = true) :=
  ⟨by decide, buildVtt_matches_spec [{ id := 0, start := 0, stop := 5/2, text := "hello" }] (by decide)⟩

/-- C6: rendering with format `txt` returns the transcript's `text` field
unmodified and succeeds even with an empty segment list (given non-empty
text), while rendering with `srt` or `vtt` fails with `SegmentsRequired`
exactly when the segment list is empty. -/
theorem renderSubtitleContent_formats (result : TranscriptResult)
    (_htext : result.text ≠ "") :
    renderSubtitleContent result "txt" = .ok result.text ∧
    (renderSubtitleContent result "srt" = .error .SegmentsRequired ↔ result.segments = []) ∧
    (renderSubtitleContent result "vtt" = .error .SegmentsRequired ↔ result.segments = []) := by
  have h1 : normalizeSubtitleFormat "txt" = .ok ".txt" := by decide
  have h2 : normalizeSubtitleFormat "srt" = .ok ".srt" := by decide
  have h3 : normalizeSubtitleFormat "vtt" = .ok ".vtt" := by decide
  refine ⟨?_, ?_, ?_⟩
  · unfold renderSubtitleContent
    rw [h1]
    simp
  · unfold renderSubtitleContent
    rw [h2]
    cases hs : result.segments with
    | nil => simp
    | cons a l => simp
  · unfold renderSubtitleContent
    rw [h3]
    cases hs : result.segments with
    | nil => simp
    | cons a l => simp

theorem renderSubtitleContent_formats_witness :
    ({ text := "hello", segments := [] } : TranscriptResult).text ≠ "" ∧
    (renderSubtitleContent { text := "hello", segments := [] } "txt" = .ok
        ({ text := "hello", segments := [] } : TranscriptResult).text ∧
      (renderSubtitleContent { text := "hello", segments := [] } "srt" =
          .error .SegmentsRequired ↔
        ({ text := "hello", segments := [] } : TranscriptResult).segments = []) ∧
      (renderSubtitleContent { text := "hello", segments := [] } "vtt" =
          .error .SegmentsRequired ↔
        ({ text := "hello", segments := [] } : TranscriptResult).segments = [])) :=
  ⟨by decide, renderSubtitleContent_formats { text := "hello", segments := [] } (by decide)⟩

theorem jsTruthyStr_ne_none {o : Option String} (h : jsTruthyStr o = true) : o ≠ none := by
  intro hn
  rw [hn] at h
  simp [jsTruthyStr] at h

theorem transcribeMedia_ok_build (format nf : String) (opts : TranscriptionOptions)
    (env : PipelineEnv) (prepRes : AudioPreparation) (prepCalls : List ExternalCall)
    (timedResult : TranscriptResult) (content : String)
    (hfmt : normalizeSubtitleFormat format = .ok nf)
    (hin : env.inputExists = true) (hkey : env.apiKeyPresent = true)
    (hprep : prepareAudioForTranscription env.prep = (.ok prepRes, prepCalls))
    (htimed : transcribeWithTimedModel env.timedResponse = .ok timedResult)
    (hrender : renderSubtitleContent
        (runCorrectionStage opts timedResult
          (runHighAccuracyStage opts env.highAccuracyResponse).1 env.correctionOutcome).1 nf =
      .ok content) :
    transcribeMedia format opts env =
      (.ok { text := (runCorrectionStage opts timedResult
                (runHighAccuracyStage opts env.highAccuracyResponse).1 env.correctionOutcome).1.text
             segments := (runCorrectionStage opts timedResult
                (runHighAccuracyStage opts env.highAccuracyResponse).1 env.correctionOutcome).1.segments
             subtitleFormat := nf
             subtitleContent := content
             modelsTimed := opts.timedModel
             modelsHighAccuracy :=
               match (runHighAccuracyStage opts env.highAccuracyResponse).1 with
               | some _ => some opts.highAccuracyModel
               | none => none
             modelsCorrection := opts.correctionModel
             warnings := (runHighAccuracyStage opts env.highAccuracyResponse).2.1 ++
               (runCorrectionStage opts timedResult
                 (runHighAccuracyStage opts env.highAccuracyResponse).1 env.correctionOutcome).2.1 },
       prepCalls ++ [.timedTranscription] ++
         (runHighAccuracyStage opts env.highAccuracyResponse).2.2 ++
         (runCorrectionStage opts timedResult
           (runHighAccuracyStage opts env.highAccuracyResponse).1 env.correctionOutcome).2.2) := by
  unfold transcribeMedia
  rw [hfmt, hin, hkey, hprep, htimed]
  simp only [Bool.true_eq_false, if_false]
  rw [hrender]

theorem transcribeMedia_ok_inv {format : String} {opts : TranscriptionOptions}
    {env : PipelineEnv} {r : RunResult} {calls : List ExternalCall}
    (h : transcribeMedia format opts env = (.ok r, calls)) :
    ∃ timedResult, transcribeWithTimedModel env.timedResponse = .ok timedResult ∧
      r.text = (runCorrectionStage opts timedResult
        (runHighAccuracyStage opts env.highAccuracyResponse).1 env.correctionOutcome).1.text ∧
      r.segments = (runCorrectionStage opts timedResult
        (runHighAccuracyStage opts env.highAccuracyResponse).1 env.correctionOutcome).1.segments ∧
      r.warnings = (runHighAccuracyStage opts env.highAccuracyResponse).2.1 ++
        (runCorrectionStage opts timedResult
          (runHighAccuracyStage opts env.highAccuracyResponse).1 env.correctionOutcome).2.1 ∧
      r.modelsHighAccuracy =
        (match (runHighAccuracyStage opts env.highAccuracyResponse).1 with
         | some _ => some opts.highAccuracyModel
         | none => none) ∧
      r.modelsCorrection = opts.correctionModel := by
  unfold transcribeMedia at h
  split at h
  · exact absurd h (by simp)
  · split at h
    · exact absurd h (by simp)
    · split at h
      · exact absurd h (by simp)
      · split at h
        · exact absurd h (by simp)
        · split at h
          · exact absurd h (by simp)
          · next timedResult htimed =>
            dsimp only at h
            split at h
            · exact absurd h (by simp)
            · exact absurd h (by simp)
            · next content hrender =>
              rw [Prod.mk.injEq, Except.ok.injEq] at h
              obtain ⟨h1, h2⟩ := h
              refine ⟨timedResult, htimed, ?_, ?_, ?_, ?_, ?_⟩ <;> rw [← h1]

/-- C1 counterexample: in this run the correction output is rejected (it
references the unknown id 99), the run completes on the base transcript with
a warning — but the returned models.correction field is the configured model
name, not null, refuting the claim's `modelsUsed.correction = null`. -/
theorem transcribeMedia_correction_null_counterexample :
    transcribeMedia ".srt" C1opts C1env =
      (.ok C1result, [.timedTranscription, .correction]) ∧
    C1result.warnings =
      ["Correction model failed: Correction output references unknown segment id 99"] ∧
    C1result.segments = [{ id := 0, start := 0, stop := 1, text := "base" }] ∧
    C1result.modelsCorrection ≠ none := by
  decide

/-- C1 (amended): when the correction stage's output is rejected or its
call/parsing fails, the run still completes on the uncorrected base
transcript and a warning describing the failure is appended — but the
returned models.correction field equals the configured correction model
name (in particular it is not null), rather than being null. -/
theorem transcribeMedia_correction_failure_amended
    (format nf : String) (opts : TranscriptionOptions) (env : PipelineEnv)
    (prepRes : AudioPreparation) (prepCalls : List ExternalCall)
    (timedResult : TranscriptResult) (msg content : String)
    (hfmt : normalizeSubtitleFormat format = .ok nf)
    (hin : env.inputExists = true) (hkey : env.apiKeyPresent = true)
    (hprep : prepareAudioForTranscription env.prep = (.ok prepRes, prepCalls))
    (htimed : transcribeWithTimedModel env.timedResponse = .ok timedResult)
    (hmodel : jsTruthyStr opts.correctionModel = true)
    (hfail : refineTranscriptWithGPT timedResult
        (runHighAccuracyStage opts env.highAccuracyResponse).1 opts env.correctionOutcome =
      .error msg)
    (hrender : renderSubtitleContent timedResult nf = .ok content) :
    ∃ r calls, transcribeMedia format opts env = (.ok r, calls) ∧
      r.text = timedResult.text ∧
      r.segments = timedResult.segments ∧
      ("Correction model failed: " ++ msg) ∈ r.warnings ∧
      r.modelsCorrection = opts.correctionModel ∧
      r.modelsCorrection ≠ none := by
  have hcorr : runCorrectionStage opts timedResult
      (runHighAccuracyStage opts env.highAccuracyResponse).1 env.correctionOutcome =
      (timedResult, ["Correction model failed: " ++ msg], [.correction]) := by
    unfold runCorrectionStage
    rw [hmodel, hfail]
    simp
  have hbuild := transcribeMedia_ok_build format nf opts env prepRes prepCalls timedResult
    content hfmt hin hkey hprep htimed (by rw [hcorr]; exact hrender)
  rw [hcorr] at hbuild
  refine ⟨_, _, hbuild, rfl, rfl, ?_, rfl, jsTruthyStr_ne_none hmodel⟩
  exact List.mem_append_right _ (by simp)

theorem transcribeMedia_correction_failure_amended_witness :
    ∃ r calls, transcribeMedia ".srt" C1opts C1env = (.ok r, calls) ∧
      r.text = C1timed.text ∧
      r.segments = C1timed.segments ∧
      ("Correction model failed: " ++ "Correction output references unknown segment id 99")
        ∈ r.warnings ∧
      r.modelsCorrection = C1opts.correctionModel ∧
      r.modelsCorrection ≠ none :=
  transcribeMedia_correction_failure_amended ".srt" ".srt" C1opts C1env
    { usedConversion := false } [] C1timed
    "Correction output references unknown segment id 99"
    "1\n00:00:00,000 --> 00:00:01,000\nbase\n"
    (by decide) (by decide) (by decide) (by decide) (by decide) (by decide) (by decide) (by decide)

theorem runCorrectionStage_calls (opts : TranscriptionOptions) (t : TranscriptResult)
    (ha : Option HighAccuracyResult) (o : CorrectionOutcome)
    (h : jsTruthyStr opts.correctionModel = true) :
    (runCorrectionStage opts t ha o).2.2 = [.correction] := by
  unfold runCorrectionStage
  rw [h]
  simp only [if_true]
  cases hr : refineTranscriptWithGPT t ha opts o with
  | ok r2 => rfl
  | error msg => rfl

/-- C7: when the high-accuracy stage is configured and its call (or its
non-empty-text validation) fails, the exception is caught at the stage: the
run still returns a populated result whose warnings contain the failure
description and whose models.highAccuracy is null, and the downstream
correction and rendering stages still execute on the base transcript. -/
theorem transcribeMedia_highAccuracy_failure_soft
    (format nf : String) (opts : TranscriptionOptions) (env : PipelineEnv)
    (prepRes : AudioPreparation) (prepCalls : List ExternalCall)
    (timedResult : TranscriptResult) (msg content : String)
    (hfmt : normalizeSubtitleFormat format = .ok nf)
    (hin : env.inputExists = true) (hkey : env.apiKeyPresent = true)
    (hprep : prepareAudioForTranscription env.prep = (.ok prepRes, prepCalls))
    (htimed : transcribeWithTimedModel env.timedResponse = .ok timedResult)
    (hha : shouldRunHighAccuracy opts.highAccuracyModel = true)
    (hfail : transcribeWithHighAccuracyModel env.highAccuracyResponse = .error msg)
    (hrender : renderSubtitleContent
        (runCorrectionStage opts timedResult none env.correctionOutcome).1 nf = .ok content) :
    ∃ r calls, transcribeMedia format opts env = (.ok r, calls) ∧
      ("High-accuracy transcription failed: " ++ msg) ∈ r.warnings ∧
      r.modelsHighAccuracy = none ∧
      r.text = (runCorrectionStage opts timedResult none env.correctionOutcome).1.text ∧
      r.segments = (runCorrectionStage opts timedResult none env.correctionOutcome).1.segments ∧
      r.subtitleFormat = nf ∧ r.subtitleContent = content ∧
      (jsTruthyStr opts.correctionModel = true → ExternalCall.correction ∈ calls) := by
  have hstage : runHighAccuracyStage opts env.highAccuracyResponse =
      (none, ["High-accuracy transcription failed: " ++ msg], [.highAccuracyTranscription]) := by
    unfold runHighAccuracyStage
    rw [hha, hfail]
    simp
  have hbuild := transcribeMedia_ok_build format nf opts env prepRes prepCalls timedResult
    content hfmt hin hkey hprep htimed (by rw [hstage]; exact hrender)
  rw [hstage] at hbuild
  refine ⟨_, _, hbuild, ?_, rfl, rfl, rfl, rfl, rfl, ?_⟩
  · exact List.mem_append_left _ (by simp)
  · intro htru
    rw [runCorrectionStage_calls opts timedResult none env.correctionOutcome htru]
    simp

theorem transcribeMedia_highAccuracy_failure_soft_witness :
    ∃ r calls, transcribeMedia ".srt" C7opts C7env = (.ok r, calls) ∧
      ("High-accuracy transcription failed: " ++ "boom") ∈ r.warnings ∧
      r.modelsHighAccuracy = none ∧
      r.text = (runCorrectionStage C7opts C1timed none C7env.correctionOutcome).1.text ∧
      r.segments = (runCorrectionStage C7opts C1timed none C7env.correctionOutcome).1.segments ∧
      r.subtitleFormat = ".srt" ∧
      r.subtitleContent = "1\n00:00:00,000 --> 00:00:01,000\nbase\n" ∧
      (jsTruthyStr C7opts.correctionModel = true → ExternalCall.correction ∈ calls) :=
  transcribeMedia_highAccuracy_failure_soft ".srt" ".srt" C7opts C7env
    { usedConversion := false } [] C1timed "boom"
    "1\n00:00:00,000 --> 00:00:01,000\nbase\n"
    (by decide) (by decide) (by decide) (by decide) (by decide) (by decide) (by decide) (by decide)

/-- C8 counterexample: the external timed transcription returns one segment
with start 5 and end 2 and two segments sharing id 7; the pipeline returns
that transcript unchanged, so a returned transcript can violate both
`start <= end` and id uniqueness — the invariants do not hold regardless of
what the external services returned. -/
theorem transcribeMedia_segment_invariants_counterexample :
    transcribeMedia ".txt" C8opts C8env = (.ok C8result, [.timedTranscription]) ∧
    (¬ ∀ s ∈ C8result.segments, s.start ≤ s.stop) ∧
    ¬ (C8result.segments.map Segment.id).Nodup := by
  refine ⟨by decide, by decide, by decide⟩

theorem transcribeWithTimedModel_ok_segments {t : TranscriptionResponse}
    {timedResult : TranscriptResult}
    (h : transcribeWithTimedModel (.ok t) = .ok timedResult) :
    timedResult.segments = extractSegmentsFromTranscription t := by
  unfold transcribeWithTimedModel at h
  dsimp only at h
  split at h
  · exact absurd h (by simp)
  · rw [Except.ok.injEq] at h
    rw [← h]

theorem runCorrectionStage_segments (opts : TranscriptionOptions) (t : TranscriptResult)
    (ha : Option HighAccuracyResult) (o : CorrectionOutcome) :
    (runCorrectionStage opts t ha o).1.segments = t.segments ∨
    ∃ parsed merged, o = .segments parsed ∧
      mergeSegments t.segments parsed = .ok merged ∧
      (runCorrectionStage opts t ha o).1.segments = merged := by
  unfold runCorrectionStage
  by_cases hm : jsTruthyStr opts.correctionModel = true
  · rw [hm]
    simp only [if_true]
    cases hr : refineTranscriptWithGPT t ha opts o with
    | error msg => exact Or.inl rfl
    | ok r2 =>
      cases o with
      | transportError m => exact absurd hr (by unfold refineTranscriptWithGPT; rw [hm]; simp)
      | noOutput => exact absurd hr (by unfold refineTranscriptWithGPT; rw [hm]; simp)
      | parseError m => exact absurd hr (by unfold refineTranscriptWithGPT; rw [hm]; simp)
      | missingSegmentsArray => exact absurd hr (by unfold refineTranscriptWithGPT; rw [hm]; simp)
      | segments parsed =>
        have hms := refine_segments_ok_inv hm hr
        exact Or.inr ⟨parsed, r2.segments, rfl, hms, rfl⟩
  · rw [if_neg hm]
    exact Or.inl rfl

/-- C8 (amended): provided the timed stage's parsed segments all satisfy
`start <= end` and carry pairwise-distinct ids, and any correction response
that reaches the merge contains no repeated id, every transcript the
pipeline returns satisfies both invariants: correction only ever copies
`id`/`start`/`end` from the timed segments, but the pipeline itself never
validates them, and an accepted correction that repeats an id would
duplicate it. -/
theorem transcribeMedia_segment_invariants_amended
    (format : String) (opts : TranscriptionOptions) (env : PipelineEnv)
    (r : RunResult) (calls : List ExternalCall) (t : TranscriptionResponse)
    (hrun : transcribeMedia format opts env = (.ok r, calls))
    (htr : env.timedResponse = .ok t)
    (hwf : ∀ s ∈ extractSegmentsFromTranscription t, s.start ≤ s.stop)
    (hnodup : ((extractSegmentsFromTranscription t).map Segment.id).Nodup)
    (hcorr : ∀ parsed, env.correctionOutcome = .segments parsed →
      (parsed.map CorrectionSegment.id).Nodup) :
    (∀ s ∈ r.segments, s.start ≤ s.stop) ∧ (r.segments.map Segment.id).Nodup := by
  obtain ⟨timedResult, htimed, _, hsegs, _⟩ := transcribeMedia_ok_inv hrun
  rw [htr] at htimed
  have hbase : timedResult.segments = extractSegmentsFromTranscription t :=
    transcribeWithTimedModel_ok_segments htimed
  rcases runCorrectionStage_segments opts timedResult
      (runHighAccuracyStage opts env.highAccuracyResponse).1 env.correctionOutcome with
    hkeep | ⟨parsed, merged, ho, hms, hm⟩
  · rw [hsegs, hkeep, hbase]
    exact ⟨hwf, hnodup⟩
  · rw [hsegs, hm]
    constructor
    · intro s hs
      obtain ⟨ref, href, _, hstart, hstop⟩ := mergeSegments_ok_mem hms s hs
      rw [hstart, hstop]
      exact hwf ref (hbase ▸ href)
    · rw [mergeSegments_ok_ids hms]
      exact hcorr parsed ho

theorem transcribeMedia_segment_invariants_amended_witness :
    (∀ s ∈ C8wresult.segments, s.start ≤ s.stop) ∧ (C8wresult.segments.map Segment.id).Nodup :=
  transcribeMedia_segment_invariants_amended ".srt" C8wopts C8wenv C8wresult
    [.timedTranscription, .correction] C8wresp
    (by decide) (by rfl) (by decide) (by decide)
    (by intro parsed hp; cases hp; decide)

/-- C9: when the input needs conversion (it is not a within-limit supported
audio file) and the converted audio is still over the 25 MB limit, the run
fails with `SizeLimitExceeded` and its external-call trace is exactly the
conversion call: no transcription call (timed or high-accuracy) is ever
attempted. -/
theorem transcribeMedia_size_limit_failfast
    (format nf : String) (opts : TranscriptionOptions) (env : PipelineEnv)
    (hfmt : normalizeSubtitleFormat format = .ok nf)
    (hin : env.inputExists = true) (hkey : env.apiKeyPresent = true)
    (hneed : (AUDIO_EXTENSIONS.contains env.prep.inputExt &&
      decide (env.prep.inputSize ≤ OPENAI_UPLOAD_LIMIT_BYTES)) = false)
    (hff : env.prep.ffmpegAvailable = true)
    (hconv : env.prep.conversionSucceeds = true)
    (hbig : OPENAI_UPLOAD_LIMIT_BYTES < env.prep.convertedSize) :
    transcribeMedia format opts env = (.error .SizeLimitExceeded, [.ffmpegConvert]) ∧
    ExternalCall.timedTranscription ∉ [ExternalCall.ffmpegConvert] ∧
    ExternalCall.highAccuracyTranscription ∉ [ExternalCall.ffmpegConvert] := by
  have hprep : prepareAudioForTranscription env.prep =
      (.error .SizeLimitExceeded, [.ffmpegConvert]) := by
    unfold prepareAudioForTranscription
    dsimp only
    rw [hneed, hff, hconv]
    simp only [Bool.false_eq_true, if_false, Bool.true_eq_false]
    rw [if_pos hbig]
  unfold transcribeMedia
  rw [hfmt, hin, hkey, hprep]
  refine ⟨?_, by decide, by decide⟩
  simp

theorem transcribeMedia_size_limit_failfast_witness :
    transcribeMedia ".srt" C1opts C9env = (.error .SizeLimitExceeded, [.ffmpegConvert]) ∧
    ExternalCall.timedTranscription ∉ [ExternalCall.ffmpegConvert] ∧
    ExternalCall.highAccuracyTranscription ∉ [ExternalCall.ffmpegConvert] :=
  transcribeMedia_size_limit_failfast ".srt" ".srt" C1opts C9env
    (by decide) (by decide) (by decide) (by decide) (by decide) (by decide) (by decide)
